import Mathlib

/-!
Shallow embedding of the Unix asynchronous process-I/O subsystem
(asyncio/base_subprocess.py and asyncio/unix_events.py): pipe transports,
the subprocess transport, and the two child-watcher strategies, together
with theorems settling the specification claims about them.

Bytes are modelled as `List Nat`, file-descriptor maps as association
lists, the event loop's `call_soon` queue as an explicit list of calls,
and the OS (`os.write`, `os.read`, `os.waitpid`) as an oracle argument
supplying each call's outcome.
-/

/-- Outcome of one `os.write(fd, data)` call, as seen by the caller:
either `n` bytes were accepted, or `BlockingIOError` / `InterruptedError`
was raised, or some other `Exception` (identified by a code) was raised. -/
inductive WriteOutcome where
  | wrote (n : Nat)
  | wouldBlock
  | interrupted
  | fatal (e : Nat)
deriving DecidableEq, Repr

/-- Modelled from the spec: the `constants` module
(`LOG_THRESHOLD_FOR_CONNLOST_WRITES`) is not in the source tree; the spec
only states that a logging threshold exists.  The reference value 5 is
used; no theorem below depends on the value. -/
def LOG_THRESHOLD_FOR_CONNLOST_WRITES : Nat := 5

/-- State of `_UnixWritePipeTransport` (unix_events.py), plus an explicit
record of its externally visible effects: `delivered` are the bytes the
peer has received through `os.write`, `connLost` records each
`_call_connection_lost(exc)` invocation (scheduled or direct), and
`logCount` counts the lost-write warnings. -/
structure UnixWritePipeTransport where
  buffer : List (List Nat)
  conn_lost : Nat
  closing : Bool
  readerRegistered : Bool
  writerRegistered : Bool
  delivered : List Nat
  connLost : List (Option Nat)
  logCount : Nat
deriving DecidableEq, Repr

namespace UnixWritePipeTransport

/-- State of the transport right after `__init__`: empty buffer, a reader
registered on the descriptor (the peer-close detection trick), no writer. -/
def initState : UnixWritePipeTransport :=
  { buffer := [], conn_lost := 0, closing := false,
    readerRegistered := true, writerRegistered := false,
    delivered := [], connLost := [], logCount := 0 }

/-- Embedding of `_UnixWritePipeTransport._close(exc)`: mark closing,
drop the buffer (removing the writer registration if the buffer was
non-empty), remove the reader and schedule `_call_connection_lost(exc)`. -/
def closeWith (st : UnixWritePipeTransport) (exc : Option Nat) :
    UnixWritePipeTransport :=
  { st with
    closing := true,
    writerRegistered := if st.buffer ≠ [] then false else st.writerRegistered,
    buffer := [],
    readerRegistered := false,
    connLost := st.connLost ++ [exc] }

/-- Embedding of `_UnixWritePipeTransport.write(data)`.  The
`WriteOutcome` argument is the oracle for the (at most one) `os.write`
performed by the call; it is ignored on paths that never reach
`os.write`. -/
def write (st : UnixWritePipeTransport) (data : List Nat)
    (out : WriteOutcome) : UnixWritePipeTransport :=
  if data = [] then st
  else if st.conn_lost ≠ 0 ∨ st.closing = true then
    { st with
      logCount :=
        if LOG_THRESHOLD_FOR_CONNLOST_WRITES ≤ st.conn_lost then
          st.logCount + 1
        else st.logCount,
      conn_lost := st.conn_lost + 1 }
  else if st.buffer = [] then
    match out with
    | .wouldBlock =>
        { st with writerRegistered := true, buffer := [data] }
    | .interrupted =>
        { st with writerRegistered := true, buffer := [data] }
    | .fatal e =>
        closeWith { st with conn_lost := st.conn_lost + 1 } (some e)
    | .wrote n =>
        if n = data.length then
          { st with delivered := st.delivered ++ data }
        else
          { st with
            delivered := st.delivered ++ data.take n,
            writerRegistered := true,
            buffer := [data.drop n] }
  else { st with buffer := st.buffer ++ [data] }

/-- Embedding of `_UnixWritePipeTransport._write_ready()` (the
write-readiness callback).  Returns `none` when the `assert data`
(non-empty joined buffer) fails. -/
def write_ready (st : UnixWritePipeTransport) (out : WriteOutcome) :
    Option UnixWritePipeTransport :=
  let data := st.buffer.flatten
  if data = [] then none
  else
    let st1 := { st with buffer := [] }
    match out with
    | .wouldBlock => some { st1 with buffer := [data] }
    | .interrupted => some { st1 with buffer := [data] }
    | .fatal e =>
        some (closeWith
          { st1 with conn_lost := st1.conn_lost + 1, writerRegistered := false }
          (some e))
    | .wrote n =>
        if n = data.length then
          let st2 := { st1 with delivered := st1.delivered ++ data,
                                writerRegistered := false }
          if st2.closing = true then
            some { st2 with readerRegistered := false,
                            connLost := st2.connLost ++ [none] }
          else some st2
        else
          some { st1 with delivered := st1.delivered ++ data.take n,
                          buffer := [data.drop n] }

/-- Embedding of `_UnixWritePipeTransport.write_eof()`. -/
def write_eof (st : UnixWritePipeTransport) : UnixWritePipeTransport :=
  if st.closing = true then st
  else
    let st1 : UnixWritePipeTransport := { st with closing := true }
    if st1.buffer = [] then
      { st1 with readerRegistered := false,
                 connLost := st1.connLost ++ [none] }
    else st1

/-- Embedding of `_UnixWritePipeTransport.close()`: `write_eof` is all
that is needed to close the write pipe, guarded by the closing flag. -/
def close (st : UnixWritePipeTransport) : UnixWritePipeTransport :=
  if st.closing = true then st else st.write_eof

end UnixWritePipeTransport

/-- One operation applied to a write pipe transport: a caller `write`
or a reactor-driven `_write_ready` flush, each with its `os.write`
oracle outcome. -/
inductive WOp where
  | write (data : List Nat) (out : WriteOutcome)
  | flush (out : WriteOutcome)
deriving DecidableEq, Repr

namespace UnixWritePipeTransport

/-- Apply one operation to a write pipe transport state. -/
def wstep (st : UnixWritePipeTransport) : WOp → Option UnixWritePipeTransport
  | .write data out => some (st.write data out)
  | .flush out => st.write_ready out

/-- Run a sequence of operations. -/
def wrun (st : UnixWritePipeTransport) :
    List WOp → Option UnixWritePipeTransport
  | [] => some st
  | op :: ops =>
    match st.wstep op with
    | none => none
    | some st' => st'.wrun ops

/-- The number of bytes handed to the one `os.write` call an operation
performs (the chunk being written, or the joined buffer for a flush). -/
def opLen (st : UnixWritePipeTransport) : WOp → Nat
  | .write data _ => data.length
  | .flush _ => st.buffer.flatten.length

/-- A well-formed oracle outcome for a write of `len` bytes: `os.write`
reports at most `len` bytes accepted, and no fatal error occurs. -/
def okOut (out : WriteOutcome) (len : Nat) : Bool :=
  match out with
  | .wrote n => n ≤ len
  | .wouldBlock => true
  | .interrupted => true
  | .fatal _ => false

/-- Checks, along a run, that every operation's oracle outcome is
well-formed and fatal-free, and that every step succeeds. -/
def fatalFree (st : UnixWritePipeTransport) : List WOp → Bool
  | [] => true
  | op :: ops =>
    okOut (match op with | .write _ out => out | .flush out => out)
        (st.opLen op) &&
      match st.wstep op with
      | none => false
      | some st' => st'.fatalFree ops

/-- Concatenation, in call order, of the chunks passed to `write` in a
sequence of operations. -/
def writtenBytes : List WOp → List Nat
  | [] => []
  | .write data _ :: ops => data ++ writtenBytes ops
  | .flush _ :: ops => writtenBytes ops

end UnixWritePipeTransport

/-- A call deferred to the event loop by the read pipe transport
(`loop.call_soon`): `eof_received` or `_call_connection_lost(exc)`. -/
inductive RCall where
  | eof_received
  | connection_lost (exc : Option Nat)
deriving DecidableEq, Repr

/-- Outcome of one `os.read(fd, max_size)` call: `avail` is the byte
stream the descriptor currently offers (the OS returns its first
`max_size` bytes; an empty result means the peer closed), or a raised
`BlockingIOError` / `InterruptedError` / other `OSError`. -/
inductive ReadOutcome where
  | avail (bytes : List Nat)
  | wouldBlock
  | interrupted
  | fatal (e : Nat)
deriving DecidableEq, Repr

/-- State of `_UnixReadPipeTransport` (unix_events.py) plus explicit
effect logs: `dataReceived` records direct `protocol.data_received(data)`
calls and `scheduled` the `call_soon` queue it feeds. -/
structure UnixReadPipeTransport where
  closing : Bool
  readerRegistered : Bool
  dataReceived : List (List Nat)
  scheduled : List RCall
deriving DecidableEq, Repr

namespace UnixReadPipeTransport

/-- Bound passed to `os.read`: max bytes read per event-loop iteration. -/
def max_size : Nat := 256 * 1024

/-- State right after `__init__`: reader registered, nothing delivered. -/
def initState : UnixReadPipeTransport :=
  { closing := false, readerRegistered := true,
    dataReceived := [], scheduled := [] }

/-- Modelled from the OS interface: `os.read(fd, maxSize)` returns at
most the first `maxSize` bytes the descriptor offers. -/
def os_read (bytes : List Nat) (maxSize : Nat) : List Nat :=
  bytes.take maxSize

/-- Embedding of `_UnixReadPipeTransport._close(exc)`. -/
def closeWith (st : UnixReadPipeTransport) (exc : Option Nat) :
    UnixReadPipeTransport :=
  { st with closing := true, readerRegistered := false,
            scheduled := st.scheduled ++ [.connection_lost exc] }

/-- Embedding of `_UnixReadPipeTransport._fatal_error(exc)` (the log
call aside): the teardown path `_close(exc)`. -/
def fatal_error (st : UnixReadPipeTransport) (e : Nat) :
    UnixReadPipeTransport :=
  st.closeWith (some e)

/-- Embedding of `_UnixReadPipeTransport._read_ready()`. -/
def read_ready (st : UnixReadPipeTransport) (out : ReadOutcome) :
    UnixReadPipeTransport :=
  match out with
  | .wouldBlock => st
  | .interrupted => st
  | .fatal e => st.fatal_error e
  | .avail bytes =>
    let data := os_read bytes max_size
    if data ≠ [] then
      { st with dataReceived := st.dataReceived ++ [data] }
    else
      { st with closing := true, readerRegistered := false,
                scheduled := st.scheduled ++
                  [.eof_received, .connection_lost none] }

/-- Embedding of `_UnixReadPipeTransport.pause_reading()`. -/
def pause_reading (st : UnixReadPipeTransport) : UnixReadPipeTransport :=
  { st with readerRegistered := false }

/-- Embedding of `_UnixReadPipeTransport.resume_reading()`. -/
def resume_reading (st : UnixReadPipeTransport) : UnixReadPipeTransport :=
  { st with readerRegistered := true }

/-- Embedding of `_UnixReadPipeTransport.close()`. -/
def close (st : UnixReadPipeTransport) : UnixReadPipeTransport :=
  if st.closing = true then st else st.closeWith none

end UnixReadPipeTransport

/-- A call handed to `BaseSubprocessTransport._call` or scheduled by it
on the loop: the protocol methods the transport invokes. -/
inductive PCall where
  | connection_made
  | pipe_connection_lost (fd : Nat) (exc : Option Nat)
  | pipe_data_received (fd : Nat) (data : List Nat)
  | process_exited
  | connection_lost (exc : Option Nat)
deriving DecidableEq, Repr

/-- State of a `WriteSubprocessPipeProto` / `ReadSubprocessPipeProto`
entry stored in `BaseSubprocessTransport._pipes`: its `pipe` attribute
(the pipe transport, `none` until `connection_made`) and its
`disconnected` flag. -/
structure SubprocessPipeProto where
  pipe : Option Unit
  disconnected : Bool
deriving DecidableEq, Repr

/-- State of `BaseSubprocessTransport` (base_subprocess.py).  `pipes`
maps a stream index to `none` (the placeholder stored at construction,
before wiring) or the wired pipe protocol; `scheduled` is the
`loop.call_soon` queue the transport feeds; `waitersResolved` records
the results handed to exit waiters. -/
structure BaseSubprocessTransport where
  closed : Bool
  returncode : Option Int
  pipes : List (Nat × Option SubprocessPipeProto)
  pending_calls : Option (List PCall)
  finished : Bool
  scheduled : List PCall
  waitersResolved : List Int
deriving DecidableEq, Repr

namespace BaseSubprocessTransport

/-- Association-list read of `self._pipes`: `none` when the key is
absent, `some v` for the stored value (which is itself an `Option`). -/
def getFd (pipes : List (Nat × Option SubprocessPipeProto)) (fd : Nat) :
    Option (Option SubprocessPipeProto) :=
  match pipes with
  | [] => none
  | (k, v) :: rest => if k = fd then some v else getFd rest fd

/-- Association-list update of an existing key of `self._pipes`. -/
def setFd (pipes : List (Nat × Option SubprocessPipeProto)) (fd : Nat)
    (v : Option SubprocessPipeProto) :
    List (Nat × Option SubprocessPipeProto) :=
  pipes.map fun p => if p.1 = fd then (p.1, v) else p

/-- State after `__init__` for a given choice of piped streams: a `none`
placeholder per piped stream, an empty pending-calls queue. -/
def initState (stdin stdout stderr : Bool) : BaseSubprocessTransport :=
  { closed := false, returncode := none,
    pipes := (if stdin then [(0, none)] else []) ++
             (if stdout then [(1, none)] else []) ++
             (if stderr then [(2, none)] else []),
    pending_calls := some [], finished := false,
    scheduled := [], waitersResolved := [] }

/-- Embedding of `BaseSubprocessTransport._call(cb, *data)`: queue the
call while pipe wiring is incomplete, else `loop.call_soon` it. -/
def callq (st : BaseSubprocessTransport) (c : PCall) :
    BaseSubprocessTransport :=
  match st.pending_calls with
  | some q => { st with pending_calls := some (q ++ [c]) }
  | none => { st with scheduled := st.scheduled ++ [c] }

/-- Every present pipe protocol is wired and has reported disconnection
(`all(p is not None and p.disconnected for p in self._pipes.values())`). -/
def allPipesDisconnected
    (pipes : List (Nat × Option SubprocessPipeProto)) : Bool :=
  pipes.all fun p =>
    match p.2 with
    | some proto => proto.disconnected
    | none => false

/-- Embedding of `BaseSubprocessTransport._try_finish()`; `none` models
the `assert not self._finished` failing. -/
def try_finish (st : BaseSubprocessTransport) :
    Option BaseSubprocessTransport :=
  if st.finished = true then none
  else if st.returncode = none then some st
  else if allPipesDisconnected st.pipes then
    some (callq { st with finished := true } (.connection_lost none))
  else some st

/-- Embedding of `BaseSubprocessTransport.get_pipe_transport(fd)`.
`Except.error ()` models the `AttributeError` raised by `None.pipe` when
the stored entry is still the pre-wiring placeholder. -/
def get_pipe_transport (st : BaseSubprocessTransport) (fd : Nat) :
    Except Unit (Option Unit) :=
  match getFd st.pipes fd with
  | none => .ok none
  | some none => .error ()
  | some (some proto) => .ok proto.pipe

end BaseSubprocessTransport

/-- One event arriving at a `BaseSubprocessTransport`: a pipe-wiring
step of `_connect_pipes` completing for one stream, the final flush of
`_connect_pipes` (pending-calls drain plus `connection_made`), or a
callback `_pipe_data_received` / `_pipe_connection_lost` /
`_process_exited` from a pipe protocol or the child watcher. -/
inductive SEvent where
  | wirePipe (fd : Nat)
  | wiringDone
  | pipeData (fd : Nat) (data : List Nat)
  | pipeLost (fd : Nat) (exc : Option Nat)
  | procExited (rc : Int)
deriving DecidableEq, Repr

namespace BaseSubprocessTransport

/-- Transition of the subprocess transport on one event.  `none` models
a failing `assert` (`_process_exited` on an already-recorded return
code, `_try_finish` after `finished`, the pending-calls assert in
`_connect_pipes`) or an event that cannot occur in that state (a pipe
protocol reports data or disconnection only once wired, and
disconnection only once). -/
def step (st : BaseSubprocessTransport) (e : SEvent) :
    Option BaseSubprocessTransport :=
  match e with
  | .wirePipe fd =>
    match getFd st.pipes fd with
    | some none =>
        some { st with
          pipes := setFd st.pipes fd (some { pipe := some (), disconnected := false }) }
    | _ => none
  | .wiringDone =>
    match st.pending_calls with
    | none => none
    | some q =>
        if st.pipes.all (fun p => (p.2).isSome) then
          some { st with
            scheduled := st.scheduled ++ [.connection_made] ++ q,
            pending_calls := none }
        else none
  | .pipeData fd data =>
    match getFd st.pipes fd with
    | some (some _) => some (callq st (.pipe_data_received fd data))
    | _ => none
  | .pipeLost fd exc =>
    match getFd st.pipes fd with
    | some (some proto) =>
        if proto.disconnected = true then none
        else
          try_finish
            (callq
              { st with
                pipes := setFd st.pipes fd (some { proto with disconnected := true }) }
              (.pipe_connection_lost fd exc))
    | _ => none
  | .procExited rc =>
    match st.returncode with
    | some _ => none
    | none =>
      match try_finish (callq { st with returncode := some rc } .process_exited) with
      | none => none
      | some st' =>
          some { st' with waitersResolved := st'.waitersResolved ++ [rc] }

/-- Run a sequence of events through the transport. -/
def run (st : BaseSubprocessTransport) :
    List SEvent → Option BaseSubprocessTransport
  | [] => some st
  | e :: evs =>
    match st.step e with
    | none => none
    | some st' => st'.run evs

/-- All calls the transport has emitted so far: the `call_soon` queue
followed by the still-pending deferred calls. -/
def allCalls (st : BaseSubprocessTransport) : List PCall :=
  st.scheduled ++ st.pending_calls.getD []

/-- Number of `connection_lost` deliveries among a list of calls. -/
def countCL (cs : List PCall) : Nat :=
  cs.countP fun c =>
    match c with
    | .connection_lost _ => true
    | _ => false

/-- Number of `process_exited` deliveries among a list of calls. -/
def countPE (cs : List PCall) : Nat :=
  cs.countP fun c =>
    match c with
    | .process_exited => true
    | _ => false

end BaseSubprocessTransport

/-- Modelled from the OS interface (glibc wait-status encoding):
`os.WTERMSIG(status)` is the low seven bits. -/
def WTERMSIG (status : Nat) : Nat := status % 128

/-- Modelled from the OS interface: `os.WIFEXITED(status)` — the child
exited normally (termination signal field zero). -/
def WIFEXITED (status : Nat) : Bool := status % 128 = 0

/-- Modelled from the OS interface: `os.WIFSIGNALED(status)` — the child
was killed by a signal (termination signal field neither 0 nor 0x7f). -/
def WIFSIGNALED (status : Nat) : Bool :=
  status % 128 ≠ 0 && status % 128 ≠ 127

/-- Modelled from the OS interface: `os.WEXITSTATUS(status)` — bits 8-15
of the wait status. -/
def WEXITSTATUS (status : Nat) : Nat := status / 256 % 256

/-- Embedding of `BaseChildWatcher._compute_returncode(status)`
(unix_events.py), inherited unchanged by both `SafeChildWatcher` and
`FastChildWatcher`: negative signal number when killed by a signal, the
exit status when exited normally, the raw status otherwise. -/
def computeReturncode (status : Nat) : Int :=
  if WIFSIGNALED status then -(WTERMSIG status : Int)
  else if WIFEXITED status then (WEXITSTATUS status : Int)
  else (status : Int)

/-- Remove the entry for a key from an association list and return its
value, as `dict.pop` does; `none` models the `KeyError` path. -/
def popKey (k : Nat) : List (Nat × α) → Option (α × List (Nat × α))
  | [] => none
  | (k', v) :: rest =>
    if k' = k then some (v, rest)
    else
      match popKey k rest with
      | none => none
      | some (v', rest') => some (v', (k', v) :: rest')

/-- Overwrite-or-append insertion into an association list, as
assignment to a `dict` key does. -/
def dictInsert (k : Nat) (v : α) : List (Nat × α) → List (Nat × α)
  | [] => [(k, v)]
  | (k', v') :: rest =>
    if k' = k then (k, v) :: rest else (k', v') :: dictInsert k v rest

/-- The keys of an association list. -/
def keysOf (l : List (Nat × α)) : List Nat := l.map Prod.fst

/-- Outcome of one `os.waitpid(expected_pid, WNOHANG)` call: the child
exited with a wait status, is still alive (`waitpid` returned pid 0), or
was already reaped elsewhere (`ChildProcessError`). -/
inductive WaitResult where
  | exited (status : Nat)
  | stillAlive
  | noChild
deriving DecidableEq, Repr

/-- State of `SafeChildWatcher`: the pid-to-callback map plus explicit
logs of callback invocations (`fired`, as (pid, returncode, callback)
triples) and of the unknown-child warnings (`warns`). -/
structure SafeChildWatcher where
  callbacks : List (Nat × Nat)
  fired : List (Nat × Int × Nat)
  warns : Nat
deriving DecidableEq, Repr

namespace SafeChildWatcher

/-- Watcher with no registered handlers. -/
def initState : SafeChildWatcher :=
  { callbacks := [], fired := [], warns := 0 }

/-- The `try: pop / else: callback(...)` tail of `_do_waitpid`: invoke
and remove the registered callback, or pass on `KeyError`. -/
def fireCallback (st : SafeChildWatcher) (pid : Nat) (rc : Int) :
    SafeChildWatcher :=
  match popKey pid st.callbacks with
  | none => st
  | some (cb, rest) =>
      { st with callbacks := rest, fired := st.fired ++ [(pid, rc, cb)] }

/-- Embedding of `SafeChildWatcher._do_waitpid(expected_pid)`, with the
`os.waitpid` outcome supplied by the oracle argument. -/
def do_waitpid (st : SafeChildWatcher) (expected_pid : Nat)
    (res : WaitResult) : SafeChildWatcher :=
  match res with
  | .stillAlive => st
  | .noChild =>
      fireCallback { st with warns := st.warns + 1 } expected_pid 255
  | .exited status =>
      fireCallback st expected_pid (computeReturncode status)

/-- Embedding of `SafeChildWatcher._do_waitpid_all()`: poll every
currently tracked pid, with a per-pid oracle. -/
def do_waitpid_all (st : SafeChildWatcher) (oracle : Nat → WaitResult) :
    SafeChildWatcher :=
  (keysOf st.callbacks).foldl (fun s pid => s.do_waitpid pid (oracle pid)) st

/-- Embedding of `SafeChildWatcher.add_child_handler(pid, callback)`:
register, then immediately poll once. -/
def add_child_handler (st : SafeChildWatcher) (pid cb : Nat)
    (res : WaitResult) : SafeChildWatcher :=
  do_waitpid { st with callbacks := dictInsert pid cb st.callbacks } pid res

/-- Embedding of `BaseChildWatcher.remove_child_handler(pid)`. -/
def remove_child_handler (st : SafeChildWatcher) (pid : Nat) :
    SafeChildWatcher × Bool :=
  match popKey pid st.callbacks with
  | none => (st, false)
  | some (_, rest) => ({ st with callbacks := rest }, true)

end SafeChildWatcher

/-- State of `FastChildWatcher`: the pid-to-callback map, the zombie
cache, the spawn-scope (fork) counter, plus explicit logs of callback
invocations (`fired`) and of pids reported as terminations from unknown
pids (`untracked`), both as (pid, returncode) pairs. -/
structure FastChildWatcher where
  callbacks : List (Nat × Nat)
  zombies : List (Nat × Int)
  forks : Nat
  fired : List (Nat × Int)
  untracked : List (Nat × Int)
deriving DecidableEq, Repr

/-- One event arriving at a `FastChildWatcher`: a spawn-scope entry or
exit (`__enter__` / `__exit__`), one successful `os.waitpid(-1, WNOHANG)`
reap inside `_do_waitpid_all`, or an `add_child_handler` call. -/
inductive FEvent where
  | enter
  | exitScope
  | reap (pid status : Nat)
  | add (pid cb : Nat)
deriving DecidableEq, Repr

namespace FastChildWatcher

/-- Watcher with no registered handlers, no zombies, no open scope. -/
def initState : FastChildWatcher :=
  { callbacks := [], zombies := [], forks := 0, fired := [], untracked := [] }

/-- Transition of the fast watcher on one event.  `none` models the
`assert self._forks` in `add_child_handler` failing, or an unbalanced
`__exit__`. -/
def fstep (st : FastChildWatcher) (e : FEvent) : Option FastChildWatcher :=
  match e with
  | .enter => some { st with forks := st.forks + 1 }
  | .exitScope =>
    if st.forks = 0 then none
    else
      let st1 : FastChildWatcher := { st with forks := st.forks - 1 }
      if st1.forks ≠ 0 ∨ st1.zombies = [] then some st1
      else
        some { st1 with zombies := [],
                        untracked := st1.untracked ++ st1.zombies }
  | .reap pid status =>
    let rc := computeReturncode status
    match popKey pid st.callbacks with
    | some (_, rest) =>
        some { st with callbacks := rest, fired := st.fired ++ [(pid, rc)] }
    | none =>
      if st.forks ≠ 0 then
        some { st with zombies := dictInsert pid rc st.zombies }
      else
        some { st with untracked := st.untracked ++ [(pid, rc)] }
  | .add pid cb =>
    if st.forks = 0 then none
    else
      let st1 : FastChildWatcher :=
        { st with callbacks := dictInsert pid cb st.callbacks }
      match popKey pid st1.zombies with
      | none => some st1
      | some (rc, zrest) =>
        match popKey pid st1.callbacks with
        | none => some { st1 with zombies := zrest }
        | some (_, crest) =>
            some { st1 with zombies := zrest, callbacks := crest,
                            fired := st1.fired ++ [(pid, rc)] }

/-- Run a sequence of events through the fast watcher. -/
def frun (st : FastChildWatcher) : List FEvent → Option FastChildWatcher
  | [] => some st
  | e :: evs =>
    match st.fstep e with
    | none => none
    | some st' => st'.frun evs

/-- Checks, along a run, that every step succeeds and that no reap
reuses a pid whose exit code is still cached as a zombie (a recycled pid
would make the `dict` assignment overwrite, and so lose, the cached
code). -/
def reapFresh (st : FastChildWatcher) : List FEvent → Bool
  | [] => true
  | e :: evs =>
    (match e with
     | .reap pid _ => decide (pid ∉ keysOf st.zombies)
     | _ => true) &&
      match st.fstep e with
      | none => false
      | some st' => st'.reapFresh evs

/-- The (pid, returncode) pairs of the reap events of a trace, in
order: every exit code the OS reported to the watcher. -/
def reapsOf : List FEvent → List (Nat × Int)
  | [] => []
  | .reap pid status :: evs => (pid, computeReturncode status) :: reapsOf evs
  | _ :: evs => reapsOf evs

/-- Where the watcher has accounted for reported exit codes so far:
fired callbacks, the zombie cache, and the untracked reports. -/
def bag (st : FastChildWatcher) : Multiset (Nat × Int) :=
  (st.fired : Multiset (Nat × Int)) + (st.zombies : Multiset (Nat × Int)) +
    (st.untracked : Multiset (Nat × Int))

end FastChildWatcher

/-- A pipe transport owned by a subprocess transport: the read or write
variant. -/
inductive PipeTransportState where
  | readPipe (s : UnixReadPipeTransport)
  | writePipe (s : UnixWritePipeTransport)
deriving DecidableEq, Repr

/-- Dispatch `close()` to the underlying pipe transport. -/
def closePipeTransport : PipeTransportState → PipeTransportState
  | .readPipe s => .readPipe s.close
  | .writePipe s => .writePipe s.close

/-- View of a `BaseSubprocessTransport` exposing the pipe transports its
`close()` acts on: the `_closed` flag, the pipe transports reachable via
`proto.pipe` for each wired stream (`none` for a still-unwired
placeholder, which `close` skips), whether `_proc` is set, the recorded
return code, and a count of `kill()` attempts on the child. -/
structure SubprocessTransportView where
  closed : Bool
  tpipes : List (Nat × Option PipeTransportState)
  procSet : Bool
  returncode : Option Int
  kills : Nat
deriving DecidableEq, Repr

namespace SubprocessTransportView

/-- Embedding of `BaseSubprocessTransport.close()`: set `_closed`, close
every wired pipe transport, and kill the child if it has not exited. -/
def close (st : SubprocessTransportView) : SubprocessTransportView :=
  { st with
    closed := true,
    tpipes := st.tpipes.map fun p => (p.1, p.2.map closePipeTransport),
    kills :=
      if st.procSet = true ∧ st.returncode = none then st.kills + 1
      else st.kills }

end SubprocessTransportView

/-- Invariant of the subprocess transport tying `connection_lost` and
`process_exited` deliveries to the `finished` flag and the recorded
return code. -/
def SubprocInv (st : BaseSubprocessTransport) : Prop :=
  BaseSubprocessTransport.countCL (st.allCalls) =
      (if st.finished then 1 else 0) ∧
    (st.finished = true →
      st.returncode.isSome = true ∧
        BaseSubprocessTransport.allPipesDisconnected st.pipes = true) ∧
    BaseSubprocessTransport.countPE (st.allCalls) =
      (if st.returncode.isSome then 1 else 0)

theorem UnixReadPipeTransport.read_close_idem (st : UnixReadPipeTransport) :
    st.close.close = st.close := by
  by_cases h : st.closing = true
  · simp [UnixReadPipeTransport.close, h]
  · simp [UnixReadPipeTransport.close, UnixReadPipeTransport.closeWith, h]

theorem UnixWritePipeTransport.write_close_idem (st : UnixWritePipeTransport) :
    st.close.close = st.close := by
  by_cases h : st.closing = true
  · simp [UnixWritePipeTransport.close, h]
  · by_cases hb : st.buffer = [] <;>
      simp [UnixWritePipeTransport.close, UnixWritePipeTransport.write_eof, h, hb]

theorem closePipeTransport_idem (p : PipeTransportState) :
    closePipeTransport (closePipeTransport p) = closePipeTransport p := by
  cases p with
  | readPipe s => simp [closePipeTransport, UnixReadPipeTransport.read_close_idem]
  | writePipe s => simp [closePipeTransport, UnixWritePipeTransport.write_close_idem]

theorem SubprocessTransportView.close_tpipes_idem
    (st : SubprocessTransportView) :
    st.close.close.tpipes = st.close.tpipes := by
  simp only [SubprocessTransportView.close, List.map_map]
  refine List.map_congr_left ?_
  intro p _
  cases hp : p.2 with
  | none => simp [Function.comp, hp]
  | some q => simp [Function.comp, hp, closePipeTransport_idem]

/-- C7: calling `close()` twice on any PipeEndpoint (read or write
direction) is a no-op the second time (the whole state, including the
scheduled `connection_lost` deliveries, is unchanged), and calling
`close()` twice on a ProcessTransport leaves every owned pipe transport
(hence every scheduled `connection_lost`) exactly as after the first
close; so `connection_lost` is scheduled at most once per endpoint and
per transport. -/
theorem claim_C7 :
    (∀ st : UnixReadPipeTransport, st.close.close = st.close) ∧
    (∀ st : UnixWritePipeTransport, st.close.close = st.close) ∧
    (∀ st : SubprocessTransportView, st.close.close.tpipes = st.close.tpipes) :=
  ⟨UnixReadPipeTransport.read_close_idem, UnixWritePipeTransport.write_close_idem,
    SubprocessTransportView.close_tpipes_idem⟩

/-- C10: `get_pipe_transport(fd)` is a pure lookup: it returns `none`
when `fd` was not configured as a pipe, returns the `pipe` field of the
stored protocol entry when `fd` is configured and wiring has stored a
protocol, and raises (`AttributeError`, modelled as `Except.error`) when
the entry is still the pre-wiring `None` placeholder — as the freshly
constructed transport with stdin piped shows. -/
theorem claim_C10 (st : BaseSubprocessTransport) (fd : Nat) :
    (BaseSubprocessTransport.getFd st.pipes fd = none →
      st.get_pipe_transport fd = .ok none) ∧
    (∀ proto, BaseSubprocessTransport.getFd st.pipes fd = some (some proto) →
      st.get_pipe_transport fd = .ok proto.pipe) ∧
    (BaseSubprocessTransport.getFd st.pipes fd = some none →
      st.get_pipe_transport fd = .error ()) ∧
    (BaseSubprocessTransport.initState true false false).get_pipe_transport 0 =
      .error () := by
  refine ⟨?_, ?_, ?_, rfl⟩
  · intro h; simp [BaseSubprocessTransport.get_pipe_transport, h]
  · intro proto h; simp [BaseSubprocessTransport.get_pipe_transport, h]
  · intro h; simp [BaseSubprocessTransport.get_pipe_transport, h]

theorem claim_C10_witness :
    (BaseSubprocessTransport.initState true false false).get_pipe_transport 1 =
        .ok none ∧
    ({ BaseSubprocessTransport.initState true false false with
        pipes := [(0, some { pipe := some (), disconnected := false })] }
          : BaseSubprocessTransport).get_pipe_transport 0 = .ok (some ()) ∧
    (BaseSubprocessTransport.initState true false false).get_pipe_transport 0 =
        .error () :=
  ⟨(claim_C10 (BaseSubprocessTransport.initState true false false) 1).1
      (by decide),
   (claim_C10 { BaseSubprocessTransport.initState true false false with
        pipes := [(0, some { pipe := some (), disconnected := false })] } 0).2.1
      { pipe := some (), disconnected := false } (by decide),
   (claim_C10 (BaseSubprocessTransport.initState true false false) 0).2.2.1
      (by decide)⟩

/-- C9: `write(data)` on a write PipeEndpoint is a no-op on empty data;
and when the connection is already lost or the endpoint is closing, it
only increments the lost-write counter (logging once the counter has
reached the threshold) and drops the data, leaving the buffer and every
other field unchanged. -/
theorem claim_C9 (st : UnixWritePipeTransport) (data : List Nat)
    (out : WriteOutcome) :
    st.write [] out = st ∧
    (data ≠ [] → st.conn_lost ≠ 0 ∨ st.closing = true →
      st.write data out =
        { st with
          logCount :=
            if LOG_THRESHOLD_FOR_CONNLOST_WRITES ≤ st.conn_lost then
              st.logCount + 1
            else st.logCount,
          conn_lost := st.conn_lost + 1 }) := by
  constructor
  · simp [UnixWritePipeTransport.write]
  · intro hd hl
    unfold UnixWritePipeTransport.write
    rw [if_neg hd, if_pos hl]

theorem claim_C9_witness :
    UnixWritePipeTransport.write
        { UnixWritePipeTransport.initState with conn_lost := 1 } [3]
        .wouldBlock =
      { UnixWritePipeTransport.initState with conn_lost := 2 } := by
  have h :=
    (claim_C9 { UnixWritePipeTransport.initState with conn_lost := 1 } [3]
        .wouldBlock).2 (by decide) (Or.inl (by decide))
  rw [h]
  decide

/-- C6: on read-readiness the read PipeEndpoint attempts a read bounded
by 256 KiB; would-block and interrupted errors are ignored; any other OS
error runs the fatal teardown scheduling `connection_lost(err)`; an
empty result (peer closed) unregisters the reader and schedules `eof`
then `connection_lost(None)`, in that order; a non-empty result is
forwarded directly to the handler as received data. -/
theorem claim_C6 (st : UnixReadPipeTransport) (bytes : List Nat) (e : Nat) :
    st.read_ready .wouldBlock = st ∧
    st.read_ready .interrupted = st ∧
    st.read_ready (.fatal e) =
      { st with closing := true, readerRegistered := false,
                scheduled := st.scheduled ++ [.connection_lost (some e)] } ∧
    (bytes = [] → st.read_ready (.avail bytes) =
      { st with closing := true, readerRegistered := false,
                scheduled := st.scheduled ++
                  [.eof_received, .connection_lost none] }) ∧
    (bytes ≠ [] → st.read_ready (.avail bytes) =
      { st with dataReceived := st.dataReceived ++
          [UnixReadPipeTransport.os_read bytes UnixReadPipeTransport.max_size] }) ∧
    (UnixReadPipeTransport.os_read bytes UnixReadPipeTransport.max_size).length ≤
      256 * 1024 ∧
    UnixReadPipeTransport.max_size = 256 * 1024 := by
  refine ⟨rfl, rfl, rfl, ?_, ?_, ?_, rfl⟩
  · intro h
    subst h
    simp [UnixReadPipeTransport.read_ready, UnixReadPipeTransport.os_read]
  · intro h
    have ht : UnixReadPipeTransport.os_read bytes
        UnixReadPipeTransport.max_size ≠ [] := by
      simp only [UnixReadPipeTransport.os_read, ne_eq, List.take_eq_nil_iff]
      simp [UnixReadPipeTransport.max_size, h]
    simp [UnixReadPipeTransport.read_ready, ht]
  · exact List.length_take_le _ _

theorem claim_C6_witness :
    UnixReadPipeTransport.read_ready UnixReadPipeTransport.initState
        (.avail [7]) =
      { UnixReadPipeTransport.initState with dataReceived := [[7]] } ∧
    UnixReadPipeTransport.read_ready UnixReadPipeTransport.initState
        (.avail []) =
      { UnixReadPipeTransport.initState with
          closing := true, readerRegistered := false,
          scheduled := [.eof_received, .connection_lost none] } := by
  constructor
  · have h := (claim_C6 UnixReadPipeTransport.initState [7] 0).2.2.2.2.1
      (by decide)
    rw [h]
    decide
  · have h := (claim_C6 UnixReadPipeTransport.initState [] 0).2.2.2.1 rfl
    rw [h]
    decide

theorem UnixWritePipeTransport.write_acc (st : UnixWritePipeTransport)
    (data : List Nat) (out : WriteOutcome)
    (hc : st.conn_lost = 0) (hcl : st.closing = false)
    (hok : UnixWritePipeTransport.okOut out data.length = true) :
    (st.write data out).delivered ++ (st.write data out).buffer.flatten =
      (st.delivered ++ st.buffer.flatten) ++ data ∧
    (st.write data out).conn_lost = 0 ∧
    (st.write data out).closing = false := by
  by_cases hd : data = []
  · subst hd
    simp [UnixWritePipeTransport.write, hc, hcl]
  · have hlost : ¬(st.conn_lost ≠ 0 ∨ st.closing = true) := by simp [hc, hcl]
    by_cases hb : st.buffer = []
    · cases out with
      | wouldBlock =>
          simp [UnixWritePipeTransport.write, hd, hlost, hb, hc, hcl]
      | interrupted =>
          simp [UnixWritePipeTransport.write, hd, hlost, hb, hc, hcl]
      | fatal e => simp [UnixWritePipeTransport.okOut] at hok
      | wrote n =>
          by_cases hn : n = data.length
          · simp [UnixWritePipeTransport.write, hd, hlost, hb, hn, hc, hcl]
          · simp [UnixWritePipeTransport.write, hd, hlost, hb, hn, hc, hcl,
              List.take_append_drop]
    · simp [UnixWritePipeTransport.write, hd, hlost, hb, hc, hcl,
        List.flatten_append, List.append_assoc]

theorem UnixWritePipeTransport.write_ready_acc
    (st st' : UnixWritePipeTransport) (out : WriteOutcome)
    (hc : st.conn_lost = 0) (hcl : st.closing = false)
    (hok : UnixWritePipeTransport.okOut out st.buffer.flatten.length = true)
    (h : st.write_ready out = some st') :
    st'.delivered ++ st'.buffer.flatten = st.delivered ++ st.buffer.flatten ∧
    st'.conn_lost = 0 ∧ st'.closing = false := by
  by_cases hd : st.buffer.flatten = []
  · simp [UnixWritePipeTransport.write_ready, hd] at h
  · cases out with
    | wouldBlock =>
        simp [UnixWritePipeTransport.write_ready, hd] at h
        subst h
        simp [hc, hcl]
    | interrupted =>
        simp [UnixWritePipeTransport.write_ready, hd] at h
        subst h
        simp [hc, hcl]
    | fatal e => simp [UnixWritePipeTransport.okOut] at hok
    | wrote n =>
        by_cases hn : n = st.buffer.flatten.length
        · simp [UnixWritePipeTransport.write_ready, hd, hn, hcl,
            -List.length_flatten] at h
          subst h
          simp [hc, hcl]
        · simp [UnixWritePipeTransport.write_ready, hd, hn,
            -List.length_flatten] at h
          subst h
          simp [hc, hcl, List.take_append_drop]

theorem UnixWritePipeTransport.wrun_acc :
    ∀ (ops : List WOp) (st st' : UnixWritePipeTransport),
      st.fatalFree ops = true → st.conn_lost = 0 → st.closing = false →
      st.wrun ops = some st' →
      st'.delivered ++ st'.buffer.flatten =
        (st.delivered ++ st.buffer.flatten) ++
          UnixWritePipeTransport.writtenBytes ops := by
  intro ops
  induction ops with
  | nil =>
      intro st st' _ _ _ h
      simp [UnixWritePipeTransport.wrun] at h
      subst h
      simp [UnixWritePipeTransport.writtenBytes]
  | cons op ops ih =>
      intro st st' hff hc hcl hrun
      cases op with
      | write data out =>
          simp [UnixWritePipeTransport.fatalFree, UnixWritePipeTransport.wstep,
            UnixWritePipeTransport.opLen] at hff
          obtain ⟨hok, hff'⟩ := hff
          simp [UnixWritePipeTransport.wrun, UnixWritePipeTransport.wstep]
            at hrun
          have hstep := UnixWritePipeTransport.write_acc st data out hc hcl hok
          have hrec := ih (st.write data out) st' hff' hstep.2.1 hstep.2.2 hrun
          rw [hrec, hstep.1]
          simp [UnixWritePipeTransport.writtenBytes, List.append_assoc]
      | flush out =>
          cases hw : st.write_ready out with
          | none =>
              simp [UnixWritePipeTransport.fatalFree,
                UnixWritePipeTransport.wstep, hw] at hff
          | some st1 =>
              simp [UnixWritePipeTransport.fatalFree,
                UnixWritePipeTransport.wstep, UnixWritePipeTransport.opLen, hw,
                -List.length_flatten] at hff
              obtain ⟨hok, hff'⟩ := hff
              simp [UnixWritePipeTransport.wrun, UnixWritePipeTransport.wstep,
                hw] at hrun
              have hstep := UnixWritePipeTransport.write_ready_acc st st1 out
                hc hcl hok hw
              have hrec := ih st1 st' hff' hstep.2.1 hstep.2.2 hrun
              rw [hrec, hstep.1]
              simp [UnixWritePipeTransport.writtenBytes]

/-- C1: over any sequence of `write` calls and write-readiness flushes
with no fatal error (and the endpoint never closing), the bytes
delivered to the peer followed by the bytes still buffered equal the
concatenation of the written chunks in call order — no reordering, no
loss, no duplication; and a partial immediate write shrinks the payload
to the unwritten remainder, which becomes the buffer. -/
theorem claim_C1 :
    (∀ (ops : List WOp) (st' : UnixWritePipeTransport),
      UnixWritePipeTransport.initState.fatalFree ops = true →
      UnixWritePipeTransport.initState.wrun ops = some st' →
      st'.delivered ++ st'.buffer.flatten =
        UnixWritePipeTransport.writtenBytes ops) ∧
    (∀ (st : UnixWritePipeTransport) (data : List Nat) (n : Nat),
      st.conn_lost = 0 → st.closing = false → st.buffer = [] → data ≠ [] →
      n < data.length →
      st.write data (.wrote n) =
        { st with delivered := st.delivered ++ data.take n,
                  writerRegistered := true, buffer := [data.drop n] }) := by
  constructor
  · intro ops st' hff hrun
    have h := UnixWritePipeTransport.wrun_acc ops
      UnixWritePipeTransport.initState st' hff rfl rfl hrun
    simpa [UnixWritePipeTransport.initState] using h
  · intro st data n hc hcl hb hd hn
    have hlost : ¬(st.conn_lost ≠ 0 ∨ st.closing = true) := by simp [hc, hcl]
    simp [UnixWritePipeTransport.write, hd, hlost, hb, Nat.ne_of_lt hn]

theorem claim_C1_witness :
    ([1, 2] : List Nat) =
      UnixWritePipeTransport.writtenBytes
        [.write [1, 2] (.wrote 1), .flush (.wrote 1)] ∧
    UnixWritePipeTransport.initState.write [5, 6] (.wrote 1) =
      { UnixWritePipeTransport.initState with
          delivered := [5], writerRegistered := true, buffer := [[6]] } := by
  constructor
  · have h := claim_C1.1 [.write [1, 2] (.wrote 1), .flush (.wrote 1)]
      { buffer := [], conn_lost := 0, closing := false,
        readerRegistered := true, writerRegistered := false,
        delivered := [1, 2], connLost := [], logCount := 0 }
      (by decide) (by decide)
    simpa using h
  · have h := claim_C1.2 UnixWritePipeTransport.initState [5, 6] 1 rfl rfl rfl
      (by decide) (by decide)
    rw [h]
    decide

theorem BaseSubprocessTransport.callq_finished
    (st : BaseSubprocessTransport) (c : PCall) :
    (st.callq c).finished = st.finished := by
  cases hp : st.pending_calls <;> simp [BaseSubprocessTransport.callq, hp]

theorem BaseSubprocessTransport.callq_returncode
    (st : BaseSubprocessTransport) (c : PCall) :
    (st.callq c).returncode = st.returncode := by
  cases hp : st.pending_calls <;> simp [BaseSubprocessTransport.callq, hp]

theorem BaseSubprocessTransport.callq_pipes
    (st : BaseSubprocessTransport) (c : PCall) :
    (st.callq c).pipes = st.pipes := by
  cases hp : st.pending_calls <;> simp [BaseSubprocessTransport.callq, hp]

theorem BaseSubprocessTransport.allCalls_callq
    (st : BaseSubprocessTransport) (c : PCall) :
    (st.callq c).allCalls = st.allCalls ++ [c] := by
  cases hp : st.pending_calls <;>
    simp [BaseSubprocessTransport.callq, BaseSubprocessTransport.allCalls, hp]

theorem BaseSubprocessTransport.countCL_append (a b : List PCall) :
    BaseSubprocessTransport.countCL (a ++ b) =
      BaseSubprocessTransport.countCL a + BaseSubprocessTransport.countCL b := by
  simp [BaseSubprocessTransport.countCL, List.countP_append]

theorem BaseSubprocessTransport.countPE_append (a b : List PCall) :
    BaseSubprocessTransport.countPE (a ++ b) =
      BaseSubprocessTransport.countPE a + BaseSubprocessTransport.countPE b := by
  simp [BaseSubprocessTransport.countPE, List.countP_append]

theorem BaseSubprocessTransport.allDisc_getFd :
    ∀ (pipes : List (Nat × Option SubprocessPipeProto)) (fd : Nat)
      (v : Option SubprocessPipeProto),
      BaseSubprocessTransport.allPipesDisconnected pipes = true →
      BaseSubprocessTransport.getFd pipes fd = some v →
      ∃ proto, v = some proto ∧ proto.disconnected = true := by
  intro pipes
  induction pipes with
  | nil => intro fd v _ hget; simp [BaseSubprocessTransport.getFd] at hget
  | cons p rest ih =>
      intro fd v hall hget
      obtain ⟨k, w⟩ := p
      simp only [BaseSubprocessTransport.allPipesDisconnected, List.all_cons,
        Bool.and_eq_true] at hall
      obtain ⟨hw, hrest⟩ := hall
      simp only [BaseSubprocessTransport.getFd] at hget
      by_cases hk : k = fd
      · rw [if_pos hk] at hget
        injection hget with hv
        subst hv
        cases w with
        | none => simp at hw
        | some proto => exact ⟨proto, rfl, by simpa using hw⟩
      · rw [if_neg hk] at hget
        exact ih fd v hrest hget

theorem BaseSubprocessTransport.try_finish_spec
    (st st' : BaseSubprocessTransport) (hfin : st.finished = false)
    (h : st.try_finish = some st') :
    (st.returncode = none ∧ st' = st) ∨
    (st.returncode ≠ none ∧
      BaseSubprocessTransport.allPipesDisconnected st.pipes = true ∧
      st' = BaseSubprocessTransport.callq { st with finished := true }
        (.connection_lost none)) ∨
    (st.returncode ≠ none ∧
      BaseSubprocessTransport.allPipesDisconnected st.pipes = false ∧
      st' = st) := by
  unfold BaseSubprocessTransport.try_finish at h
  rw [if_neg (by simp [hfin])] at h
  by_cases hr : st.returncode = none
  · rw [if_pos hr] at h
    injection h with h
    exact Or.inl ⟨hr, h.symm⟩
  · rw [if_neg hr] at h
    by_cases hall : BaseSubprocessTransport.allPipesDisconnected st.pipes = true
    · rw [if_pos hall] at h
      injection h with h
      exact Or.inr (Or.inl ⟨hr, hall, h.symm⟩)
    · rw [if_neg hall] at h
      injection h with h
      exact Or.inr (Or.inr ⟨hr, by simpa using hall, h.symm⟩)

theorem BaseSubprocessTransport.countCL_cm :
    BaseSubprocessTransport.countCL [.connection_made] = 0 := rfl

theorem BaseSubprocessTransport.countCL_pdr (fd : Nat) (data : List Nat) :
    BaseSubprocessTransport.countCL [.pipe_data_received fd data] = 0 := rfl

theorem BaseSubprocessTransport.countCL_pcl (fd : Nat) (exc : Option Nat) :
    BaseSubprocessTransport.countCL [.pipe_connection_lost fd exc] = 0 := rfl

theorem BaseSubprocessTransport.countCL_pe :
    BaseSubprocessTransport.countCL [.process_exited] = 0 := rfl

theorem BaseSubprocessTransport.countCL_cl (exc : Option Nat) :
    BaseSubprocessTransport.countCL [.connection_lost exc] = 1 := rfl

theorem BaseSubprocessTransport.countPE_cm :
    BaseSubprocessTransport.countPE [.connection_made] = 0 := rfl

theorem BaseSubprocessTransport.countPE_pdr (fd : Nat) (data : List Nat) :
    BaseSubprocessTransport.countPE [.pipe_data_received fd data] = 0 := rfl

theorem BaseSubprocessTransport.countPE_pcl (fd : Nat) (exc : Option Nat) :
    BaseSubprocessTransport.countPE [.pipe_connection_lost fd exc] = 0 := rfl

theorem BaseSubprocessTransport.countPE_pe :
    BaseSubprocessTransport.countPE [.process_exited] = 1 := rfl

theorem BaseSubprocessTransport.countPE_cl (exc : Option Nat) :
    BaseSubprocessTransport.countPE [.connection_lost exc] = 0 := rfl

theorem BaseSubprocessTransport.allCalls_withPipes
    (st : BaseSubprocessTransport) (p : List (Nat × Option SubprocessPipeProto)) :
    ({ st with pipes := p } : BaseSubprocessTransport).allCalls = st.allCalls := rfl

theorem BaseSubprocessTransport.finished_withPipes
    (st : BaseSubprocessTransport) (p : List (Nat × Option SubprocessPipeProto)) :
    ({ st with pipes := p } : BaseSubprocessTransport).finished = st.finished := rfl

theorem BaseSubprocessTransport.returncode_withPipes
    (st : BaseSubprocessTransport) (p : List (Nat × Option SubprocessPipeProto)) :
    ({ st with pipes := p } : BaseSubprocessTransport).returncode = st.returncode := rfl

theorem BaseSubprocessTransport.pipes_withPipes
    (st : BaseSubprocessTransport) (p : List (Nat × Option SubprocessPipeProto)) :
    ({ st with pipes := p } : BaseSubprocessTransport).pipes = p := rfl

theorem BaseSubprocessTransport.allCalls_withFinished
    (st : BaseSubprocessTransport) (b : Bool) :
    ({ st with finished := b } : BaseSubprocessTransport).allCalls = st.allCalls := rfl

theorem BaseSubprocessTransport.finished_withFinished
    (st : BaseSubprocessTransport) (b : Bool) :
    ({ st with finished := b } : BaseSubprocessTransport).finished = b := rfl

theorem BaseSubprocessTransport.returncode_withFinished
    (st : BaseSubprocessTransport) (b : Bool) :
    ({ st with finished := b } : BaseSubprocessTransport).returncode = st.returncode := rfl

theorem BaseSubprocessTransport.pipes_withFinished
    (st : BaseSubprocessTransport) (b : Bool) :
    ({ st with finished := b } : BaseSubprocessTransport).pipes = st.pipes := rfl

theorem BaseSubprocessTransport.allCalls_withReturncode
    (st : BaseSubprocessTransport) (x : Option Int) :
    ({ st with returncode := x } : BaseSubprocessTransport).allCalls = st.allCalls := rfl

theorem BaseSubprocessTransport.finished_withReturncode
    (st : BaseSubprocessTransport) (x : Option Int) :
    ({ st with returncode := x } : BaseSubprocessTransport).finished = st.finished := rfl

theorem BaseSubprocessTransport.returncode_withReturncode
    (st : BaseSubprocessTransport) (x : Option Int) :
    ({ st with returncode := x } : BaseSubprocessTransport).returncode = x := rfl

theorem BaseSubprocessTransport.pipes_withReturncode
    (st : BaseSubprocessTransport) (x : Option Int) :
    ({ st with returncode := x } : BaseSubprocessTransport).pipes = st.pipes := rfl

theorem BaseSubprocessTransport.allCalls_withWaiters
    (st : BaseSubprocessTransport) (w : List Int) :
    ({ st with waitersResolved := w } : BaseSubprocessTransport).allCalls =
      st.allCalls := rfl

theorem BaseSubprocessTransport.finished_withWaiters
    (st : BaseSubprocessTransport) (w : List Int) :
    ({ st with waitersResolved := w } : BaseSubprocessTransport).finished =
      st.finished := rfl

theorem BaseSubprocessTransport.returncode_withWaiters
    (st : BaseSubprocessTransport) (w : List Int) :
    ({ st with waitersResolved := w } : BaseSubprocessTransport).returncode =
      st.returncode := rfl

theorem BaseSubprocessTransport.pipes_withWaiters
    (st : BaseSubprocessTransport) (w : List Int) :
    ({ st with waitersResolved := w } : BaseSubprocessTransport).pipes =
      st.pipes := rfl

theorem BaseSubprocessTransport.step_inv (st st' : BaseSubprocessTransport)
    (e : SEvent) (hinv : SubprocInv st) (h : st.step e = some st') :
    SubprocInv st' := by
  obtain ⟨hCL, hFin, hPE⟩ := hinv
  cases e with
  | wirePipe fd =>
      cases hg : BaseSubprocessTransport.getFd st.pipes fd with
      | none => simp [BaseSubprocessTransport.step, hg] at h
      | some v =>
          cases v with
          | some proto => simp [BaseSubprocessTransport.step, hg] at h
          | none =>
              simp only [BaseSubprocessTransport.step, hg, Option.some.injEq] at h
              cases hf : st.finished with
              | true =>
                  obtain ⟨_, hall⟩ := hFin hf
                  obtain ⟨proto, hp, _⟩ :=
                    BaseSubprocessTransport.allDisc_getFd st.pipes fd none hall hg
                  simp at hp
              | false =>
                  subst h
                  refine ⟨hCL, ?_, hPE⟩
                  intro hf'
                  exact absurd hf' (by simp [hf])
  | wiringDone =>
      cases hp : st.pending_calls with
      | none => simp [BaseSubprocessTransport.step, hp] at h
      | some q =>
          by_cases hall : st.pipes.all (fun p => (p.2).isSome) = true
          · simp only [BaseSubprocessTransport.step, hp, if_pos hall,
              Option.some.injEq] at h
            subst h
            simp only [BaseSubprocessTransport.allCalls, hp, Option.getD_some]
              at hCL hPE
            refine ⟨?_, ?_, ?_⟩
            · show BaseSubprocessTransport.countCL
                ((st.scheduled ++ [.connection_made] ++ q) ++
                  (none : Option (List PCall)).getD []) = _
              simp only [Option.getD_none, List.append_nil,
                BaseSubprocessTransport.countCL_append,
                BaseSubprocessTransport.countCL_cm]
              rw [BaseSubprocessTransport.countCL_append] at hCL
              omega
            · exact hFin
            · show BaseSubprocessTransport.countPE
                ((st.scheduled ++ [.connection_made] ++ q) ++
                  (none : Option (List PCall)).getD []) = _
              simp only [Option.getD_none, List.append_nil,
                BaseSubprocessTransport.countPE_append,
                BaseSubprocessTransport.countPE_cm]
              rw [BaseSubprocessTransport.countPE_append] at hPE
              omega
          · simp [BaseSubprocessTransport.step, hp, hall] at h
  | pipeData fd data =>
      cases hg : BaseSubprocessTransport.getFd st.pipes fd with
      | none => simp [BaseSubprocessTransport.step, hg] at h
      | some v =>
          cases v with
          | none => simp [BaseSubprocessTransport.step, hg] at h
          | some proto =>
              simp only [BaseSubprocessTransport.step, hg, Option.some.injEq]
                at h
              subst h
              refine ⟨?_, ?_, ?_⟩
              · rw [BaseSubprocessTransport.allCalls_callq,
                  BaseSubprocessTransport.countCL_append,
                  BaseSubprocessTransport.countCL_pdr,
                  BaseSubprocessTransport.callq_finished]
                omega
              · intro hf'
                rw [BaseSubprocessTransport.callq_finished] at hf'
                rw [BaseSubprocessTransport.callq_returncode,
                  BaseSubprocessTransport.callq_pipes]
                exact hFin hf'
              · rw [BaseSubprocessTransport.allCalls_callq,
                  BaseSubprocessTransport.countPE_append,
                  BaseSubprocessTransport.countPE_pdr,
                  BaseSubprocessTransport.callq_returncode]
                omega
  | pipeLost fd exc =>
      cases hg : BaseSubprocessTransport.getFd st.pipes fd with
      | none => simp [BaseSubprocessTransport.step, hg] at h
      | some v =>
          cases v with
          | none => simp [BaseSubprocessTransport.step, hg] at h
          | some proto =>
              by_cases hdisc : proto.disconnected = true
              · simp [BaseSubprocessTransport.step, hg, hdisc] at h
              · have h' : BaseSubprocessTransport.try_finish
                    (BaseSubprocessTransport.callq
                      { st with pipes := (BaseSubprocessTransport.setFd st.pipes
                          fd (some { proto with disconnected := true })) }
                      (.pipe_connection_lost fd exc)) = some st' := by
                  simpa [BaseSubprocessTransport.step, hg, hdisc] using h
                have hf : st.finished = false := by
                  cases hf0 : st.finished with
                  | false => rfl
                  | true =>
                      obtain ⟨_, hall⟩ := hFin hf0
                      obtain ⟨proto', hp', hd'⟩ :=
                        BaseSubprocessTransport.allDisc_getFd st.pipes fd
                          (some proto) hall hg
                      injection hp' with hp'
                      subst hp'
                      exact absurd hd' hdisc
                have hAfin : (BaseSubprocessTransport.callq
                    { st with pipes := (BaseSubprocessTransport.setFd st.pipes
                        fd (some { proto with disconnected := true })) }
                    (.pipe_connection_lost fd exc)).finished = false := by
                  rw [BaseSubprocessTransport.callq_finished,
                    BaseSubprocessTransport.finished_withPipes]
                  exact hf
                have hAcl : BaseSubprocessTransport.countCL
                    (BaseSubprocessTransport.callq
                      { st with pipes := (BaseSubprocessTransport.setFd st.pipes
                          fd (some { proto with disconnected := true })) }
                      (.pipe_connection_lost fd exc)).allCalls = 0 := by
                  rw [BaseSubprocessTransport.allCalls_callq,
                    BaseSubprocessTransport.countCL_append,
                    BaseSubprocessTransport.allCalls_withPipes,
                    BaseSubprocessTransport.countCL_pcl, hCL, hf]
                  simp
                have hApe : BaseSubprocessTransport.countPE
                    (BaseSubprocessTransport.callq
                      { st with pipes := (BaseSubprocessTransport.setFd st.pipes
                          fd (some { proto with disconnected := true })) }
                      (.pipe_connection_lost fd exc)).allCalls =
                    (if st.returncode.isSome = true then 1 else 0) := by
                  rw [BaseSubprocessTransport.allCalls_callq,
                    BaseSubprocessTransport.countPE_append,
                    BaseSubprocessTransport.allCalls_withPipes,
                    BaseSubprocessTransport.countPE_pcl, hPE]
                  simp
                have hAr : (BaseSubprocessTransport.callq
                    { st with pipes := (BaseSubprocessTransport.setFd st.pipes
                        fd (some { proto with disconnected := true })) }
                    (.pipe_connection_lost fd exc)).returncode =
                    st.returncode := by
                  rw [BaseSubprocessTransport.callq_returncode,
                    BaseSubprocessTransport.returncode_withPipes]
                rcases BaseSubprocessTransport.try_finish_spec _ st' hAfin h'
                  with ⟨hr, heq⟩ | ⟨hr, hall, heq⟩ | ⟨hr, hall, heq⟩
                · subst heq
                  refine ⟨?_, ?_, ?_⟩
                  · rw [hAcl, hAfin]
                    simp
                  · intro hf'
                    rw [hAfin] at hf'
                    simp at hf'
                  · rw [hApe, hAr]
                · subst heq
                  refine ⟨?_, ?_, ?_⟩
                  · rw [BaseSubprocessTransport.allCalls_callq,
                      BaseSubprocessTransport.countCL_append,
                      BaseSubprocessTransport.countCL_cl,
                      BaseSubprocessTransport.allCalls_withFinished, hAcl,
                      BaseSubprocessTransport.callq_finished,
                      BaseSubprocessTransport.finished_withFinished]
                    simp
                  · intro _
                    constructor
                    · rw [BaseSubprocessTransport.callq_returncode,
                        BaseSubprocessTransport.returncode_withFinished, hAr]
                      rw [hAr] at hr
                      cases hro : st.returncode with
                      | none => exact absurd hro hr
                      | some r => rfl
                    · rw [BaseSubprocessTransport.callq_pipes,
                        BaseSubprocessTransport.pipes_withFinished]
                      exact hall
                  · rw [BaseSubprocessTransport.allCalls_callq,
                      BaseSubprocessTransport.countPE_append,
                      BaseSubprocessTransport.countPE_cl,
                      BaseSubprocessTransport.allCalls_withFinished, hApe,
                      BaseSubprocessTransport.callq_returncode,
                      BaseSubprocessTransport.returncode_withFinished, hAr]
                    simp
                · subst heq
                  refine ⟨?_, ?_, ?_⟩
                  · rw [hAcl, hAfin]
                    simp
                  · intro hf'
                    rw [hAfin] at hf'
                    simp at hf'
                  · rw [hApe, hAr]
  | procExited rc =>
      cases hr : st.returncode with
      | some r => simp [BaseSubprocessTransport.step, hr] at h
      | none =>
          have hf : st.finished = false := by
            cases hf0 : st.finished with
            | false => rfl
            | true =>
                obtain ⟨hsome, _⟩ := hFin hf0
                rw [hr] at hsome
                simp at hsome
          cases htf : BaseSubprocessTransport.try_finish
              (BaseSubprocessTransport.callq { st with returncode := some rc }
                .process_exited) with
          | none => simp [BaseSubprocessTransport.step, hr, htf] at h
          | some st2 =>
              simp only [BaseSubprocessTransport.step, hr, htf,
                Option.some.injEq] at h
              subst h
              have hAfin : (BaseSubprocessTransport.callq
                  { st with returncode := some rc }
                  .process_exited).finished = false := by
                rw [BaseSubprocessTransport.callq_finished,
                  BaseSubprocessTransport.finished_withReturncode]
                exact hf
              have hAcl : BaseSubprocessTransport.countCL
                  (BaseSubprocessTransport.callq
                    { st with returncode := some rc }
                    .process_exited).allCalls = 0 := by
                rw [BaseSubprocessTransport.allCalls_callq,
                  BaseSubprocessTransport.countCL_append,
                  BaseSubprocessTransport.allCalls_withReturncode,
                  BaseSubprocessTransport.countCL_pe, hCL, hf]
                simp
              have hApe1 : BaseSubprocessTransport.countPE
                  (BaseSubprocessTransport.callq
                    { st with returncode := some rc }
                    .process_exited).allCalls = 1 := by
                rw [BaseSubprocessTransport.allCalls_callq,
                  BaseSubprocessTransport.countPE_append,
                  BaseSubprocessTransport.allCalls_withReturncode,
                  BaseSubprocessTransport.countPE_pe, hPE, hr]
                simp
              have hAr : (BaseSubprocessTransport.callq
                  { st with returncode := some rc }
                  .process_exited).returncode = some rc := by
                rw [BaseSubprocessTransport.callq_returncode,
                  BaseSubprocessTransport.returncode_withReturncode]
              rcases BaseSubprocessTransport.try_finish_spec _ st2 hAfin htf
                with ⟨hr2, heq⟩ | ⟨hr2, hall, heq⟩ | ⟨hr2, hall, heq⟩
              · rw [hAr] at hr2
                simp at hr2
              · subst heq
                refine ⟨?_, ?_, ?_⟩
                · rw [BaseSubprocessTransport.allCalls_withWaiters,
                    BaseSubprocessTransport.finished_withWaiters,
                    BaseSubprocessTransport.allCalls_callq,
                    BaseSubprocessTransport.countCL_append,
                    BaseSubprocessTransport.countCL_cl,
                    BaseSubprocessTransport.allCalls_withFinished, hAcl,
                    BaseSubprocessTransport.callq_finished,
                    BaseSubprocessTransport.finished_withFinished]
                  simp
                · intro _
                  constructor
                  · rw [BaseSubprocessTransport.returncode_withWaiters,
                      BaseSubprocessTransport.callq_returncode,
                      BaseSubprocessTransport.returncode_withFinished, hAr]
                    rfl
                  · rw [BaseSubprocessTransport.pipes_withWaiters,
                      BaseSubprocessTransport.callq_pipes,
                      BaseSubprocessTransport.pipes_withFinished]
                    exact hall
                · rw [BaseSubprocessTransport.allCalls_withWaiters,
                    BaseSubprocessTransport.returncode_withWaiters,
                    BaseSubprocessTransport.allCalls_callq,
                    BaseSubprocessTransport.countPE_append,
                    BaseSubprocessTransport.countPE_cl,
                    BaseSubprocessTransport.allCalls_withFinished, hApe1,
                    BaseSubprocessTransport.callq_returncode,
                    BaseSubprocessTransport.returncode_withFinished, hAr]
                  simp
              · subst heq
                refine ⟨?_, ?_, ?_⟩
                · rw [BaseSubprocessTransport.allCalls_withWaiters,
                    BaseSubprocessTransport.finished_withWaiters, hAcl, hAfin]
                  simp
                · intro hf'
                  rw [BaseSubprocessTransport.finished_withWaiters, hAfin]
                    at hf'
                  simp at hf'
                · rw [BaseSubprocessTransport.allCalls_withWaiters,
                    BaseSubprocessTransport.returncode_withWaiters, hApe1, hAr]
                  rfl

theorem BaseSubprocessTransport.run_inv :
    ∀ (evs : List SEvent) (st st' : BaseSubprocessTransport),
      SubprocInv st → st.run evs = some st' → SubprocInv st' := by
  intro evs
  induction evs with
  | nil =>
      intro st st' hinv h
      simp [BaseSubprocessTransport.run] at h
      subst h
      exact hinv
  | cons e evs ih =>
      intro st st' hinv h
      cases hs : st.step e with
      | none => simp [BaseSubprocessTransport.run, hs] at h
      | some st1 =>
          simp only [BaseSubprocessTransport.run, hs] at h
          exact ih st1 st' (BaseSubprocessTransport.step_inv st st1 e hinv hs) h

theorem BaseSubprocessTransport.initState_inv (b1 b2 b3 : Bool) :
    SubprocInv (BaseSubprocessTransport.initState b1 b2 b3) := by
  refine ⟨?_, ?_, ?_⟩ <;>
    simp [SubprocInv, BaseSubprocessTransport.initState,
      BaseSubprocessTransport.allCalls, BaseSubprocessTransport.countCL,
      BaseSubprocessTransport.countPE]

/-- C2: along any valid event sequence, the subprocess transport
schedules the handler's `connection_lost` exactly once if `finished` is
set and never otherwise, and `finished` becomes true only when the
return code has been recorded and every present pipe protocol has
individually reported disconnection. -/
theorem claim_C2 (b1 b2 b3 : Bool) (evs : List SEvent)
    (st' : BaseSubprocessTransport)
    (h : (BaseSubprocessTransport.initState b1 b2 b3).run evs = some st') :
    BaseSubprocessTransport.countCL st'.allCalls =
      (if st'.finished then 1 else 0) ∧
    (st'.finished = true →
      st'.returncode.isSome = true ∧
        BaseSubprocessTransport.allPipesDisconnected st'.pipes = true) := by
  have h1 := BaseSubprocessTransport.run_inv evs _ st'
    (BaseSubprocessTransport.initState_inv b1 b2 b3) h
  exact ⟨h1.1, h1.2.1⟩

theorem claim_C2_witness :
    BaseSubprocessTransport.countCL
      ({ closed := false, returncode := some 7,
         pipes := [(0, some { pipe := some (), disconnected := true })],
         pending_calls := none, finished := true,
         scheduled := [.connection_made, .process_exited,
           .pipe_connection_lost 0 none, .connection_lost none],
         waitersResolved := [7] } : BaseSubprocessTransport).allCalls = 1 ∧
    (some (7 : Int)).isSome = true ∧
    BaseSubprocessTransport.allPipesDisconnected
      [(0, some { pipe := some (), disconnected := true })] = true := by
  have h := claim_C2 true false false
    [.wirePipe 0, .wiringDone, .procExited 7, .pipeLost 0 none]
    { closed := false, returncode := some 7,
      pipes := [(0, some { pipe := some (), disconnected := true })],
      pending_calls := none, finished := true,
      scheduled := [.connection_made, .process_exited,
        .pipe_connection_lost 0 none, .connection_lost none],
      waitersResolved := [7] }
    (by decide)
  refine ⟨?_, (h.2 rfl).1, (h.2 rfl).2⟩
  rw [h.1]
  rfl

theorem popKey_not_mem :
    ∀ {α : Type} (l : List (Nat × α)) (k : Nat),
      k ∉ keysOf l → popKey k l = none := by
  intro α l
  induction l with
  | nil => intro k _; rfl
  | cons p rest ih =>
      intro k h
      obtain ⟨k', v⟩ := p
      simp only [keysOf, List.map_cons, List.mem_cons, not_or] at h
      obtain ⟨h1, h2⟩ := h
      have hrec := ih k (by simpa [keysOf] using h2)
      have hk : ¬ k' = k := fun hh => h1 hh.symm
      simp [popKey, hk, hrec]

theorem popKey_dictInsert :
    ∀ {α : Type} (l : List (Nat × α)) (k : Nat) (v : α),
      k ∉ keysOf l → popKey k (dictInsert k v l) = some (v, l) := by
  intro α l
  induction l with
  | nil => intro k v _; simp [dictInsert, popKey]
  | cons p rest ih =>
      intro k v h
      obtain ⟨k', w⟩ := p
      simp only [keysOf, List.map_cons, List.mem_cons, not_or] at h
      obtain ⟨h1, h2⟩ := h
      have hk : ¬ k' = k := fun hh => h1 hh.symm
      have hrec := ih k v (by simpa [keysOf] using h2)
      simp [dictInsert, popKey, hk, hrec]

theorem dictInsert_not_mem :
    ∀ {α : Type} (l : List (Nat × α)) (k : Nat) (v : α),
      k ∉ keysOf l → dictInsert k v l = l ++ [(k, v)] := by
  intro α l
  induction l with
  | nil => intro k v _; simp [dictInsert]
  | cons p rest ih =>
      intro k v h
      obtain ⟨k', w⟩ := p
      simp only [keysOf, List.map_cons, List.mem_cons, not_or] at h
      obtain ⟨h1, h2⟩ := h
      have hk : ¬ k' = k := fun hh => h1 hh.symm
      have hrec := ih k v (by simpa [keysOf] using h2)
      simp [dictInsert, hk, hrec]

/-- C5: both watcher strategies decode an OS wait status through the one
inherited `_compute_returncode` — negative signal number when killed by
a signal, the exit status when exited normally, the raw status otherwise
— so for the same reported status the Safe and the Fast watcher hand the
callback the same exit code; and `_process_exited` is delivered exactly
once: the transport schedules one `process_exited` call when the return
code is recorded and none before. -/
theorem claim_C5 (status : Nat) (sw : SafeChildWatcher)
    (fw : FastChildWatcher) (pid cb : Nat) (rest : List (Nat × Nat))
    (b1 b2 b3 : Bool) (evs : List SEvent)
    (st' : BaseSubprocessTransport) :
    (WIFSIGNALED status = true →
      computeReturncode status = -(WTERMSIG status : Int)) ∧
    (WIFSIGNALED status = false → WIFEXITED status = true →
      computeReturncode status = (WEXITSTATUS status : Int)) ∧
    (WIFSIGNALED status = false → WIFEXITED status = false →
      computeReturncode status = (status : Int)) ∧
    (pid ∉ keysOf sw.callbacks →
      (sw.add_child_handler pid cb (.exited status)).fired =
        sw.fired ++ [(pid, computeReturncode status, cb)]) ∧
    (popKey pid fw.callbacks = some (cb, rest) →
      fw.fstep (.reap pid status) =
        some { fw with callbacks := rest,
                       fired := fw.fired ++ [(pid, computeReturncode status)] }) ∧
    ((BaseSubprocessTransport.initState b1 b2 b3).run evs = some st' →
      BaseSubprocessTransport.countPE st'.allCalls =
        (if st'.returncode.isSome then 1 else 0)) := by
  refine ⟨?_, ?_, ?_, ?_, ?_, ?_⟩
  · intro h; simp [computeReturncode, h]
  · intro h1 h2; simp [computeReturncode, h1, h2]
  · intro h1 h2; simp [computeReturncode, h1, h2]
  · intro hmem
    simp [SafeChildWatcher.add_child_handler, SafeChildWatcher.do_waitpid,
      SafeChildWatcher.fireCallback,
      popKey_dictInsert sw.callbacks pid cb hmem]
  · intro hp
    simp [FastChildWatcher.fstep, hp]
  · intro h
    exact (BaseSubprocessTransport.run_inv evs _ st'
      (BaseSubprocessTransport.initState_inv b1 b2 b3) h).2.2

theorem claim_C5_witness :
    computeReturncode 9 = -9 ∧
    (SafeChildWatcher.initState.add_child_handler 4 1 (.exited 9)).fired =
      [(4, -9, 1)] ∧
    FastChildWatcher.fstep
      { callbacks := [(4, 1)], zombies := [], forks := 1, fired := [],
        untracked := [] } (.reap 4 9) =
      some { callbacks := [], zombies := [], forks := 1, fired := [(4, -9)],
             untracked := [] } ∧
    BaseSubprocessTransport.countPE
      ({ closed := false, returncode := some 7,
         pipes := [(0, some { pipe := some (), disconnected := true })],
         pending_calls := none, finished := true,
         scheduled := [.connection_made, .process_exited,
           .pipe_connection_lost 0 none, .connection_lost none],
         waitersResolved := [7] } : BaseSubprocessTransport).allCalls = 1 := by
  have h := claim_C5 9 SafeChildWatcher.initState
    { callbacks := [(4, 1)], zombies := [], forks := 1, fired := [],
      untracked := [] } 4 1 [] true false false
    [.wirePipe 0, .wiringDone, .procExited 7, .pipeLost 0 none]
    { closed := false, returncode := some 7,
      pipes := [(0, some { pipe := some (), disconnected := true })],
      pending_calls := none, finished := true,
      scheduled := [.connection_made, .process_exited,
        .pipe_connection_lost 0 none, .connection_lost none],
      waitersResolved := [7] }
  refine ⟨?_, ?_, ?_, ?_⟩
  · rw [h.1 (by decide)]; decide
  · rw [h.2.2.2.1 (by decide)]; decide
  · rw [h.2.2.2.2.1 (by decide)]; decide
  · rw [h.2.2.2.2.2 (by decide)]; rfl

/-- C4: registering a Safe-watcher callback for a pid immediately polls
once: if the child already exited the callback fires exactly once with
the decoded exit code and is removed; if the child was already reaped
elsewhere (`ChildProcessError`) it fires exactly once with the sentinel
code 255 and is removed (after a warning); if the child is still alive
nothing fires and the registration stays; and a poll for a pid with no
registered callback never fires anything. -/
theorem claim_C4 (st : SafeChildWatcher) (pid cb status : Nat)
    (res : WaitResult) (hmem : pid ∉ keysOf st.callbacks) :
    (st.add_child_handler pid cb (.exited status) =
      { st with fired := st.fired ++ [(pid, computeReturncode status, cb)] }) ∧
    (st.add_child_handler pid cb .noChild =
      { st with warns := st.warns + 1,
                fired := st.fired ++ [(pid, 255, cb)] }) ∧
    (st.add_child_handler pid cb .stillAlive =
      { st with callbacks := st.callbacks ++ [(pid, cb)] }) ∧
    (st.do_waitpid pid res).fired = st.fired := by
  refine ⟨?_, ?_, ?_, ?_⟩
  · simp [SafeChildWatcher.add_child_handler, SafeChildWatcher.do_waitpid,
      SafeChildWatcher.fireCallback,
      popKey_dictInsert st.callbacks pid cb hmem]
  · simp [SafeChildWatcher.add_child_handler, SafeChildWatcher.do_waitpid,
      SafeChildWatcher.fireCallback,
      popKey_dictInsert st.callbacks pid cb hmem]
  · simp [SafeChildWatcher.add_child_handler, SafeChildWatcher.do_waitpid,
      dictInsert_not_mem st.callbacks pid cb hmem]
  · cases res <;>
      simp [SafeChildWatcher.do_waitpid, SafeChildWatcher.fireCallback,
        popKey_not_mem st.callbacks pid hmem]

theorem claim_C4_witness :
    (SafeChildWatcher.initState.add_child_handler 3 2 (.exited 0) =
      { callbacks := [], fired := [(3, 0, 2)], warns := 0 }) ∧
    (SafeChildWatcher.initState.add_child_handler 3 2 .noChild =
      { callbacks := [], fired := [(3, 255, 2)], warns := 1 }) ∧
    (SafeChildWatcher.initState.add_child_handler 3 2 .stillAlive =
      { callbacks := [(3, 2)], fired := [], warns := 0 }) ∧
    (SafeChildWatcher.initState.do_waitpid 3 .noChild).fired = [] := by
  have h := claim_C4 SafeChildWatcher.initState 3 2 0 .noChild (by decide)
  refine ⟨?_, ?_, ?_, ?_⟩
  · rw [h.1]; decide
  · rw [h.2.1]; decide
  · rw [h.2.2.1]; decide
  · rw [h.2.2.2]; rfl

/-- C8: once every piped stream is wired, the pending-calls queue is
flushed in FIFO order right after `connection_made` is scheduled and the
queue is retired; while wiring is incomplete `_call` queues callbacks
instead of delivering them (pipe data included), and after the flush
`_call` schedules directly on the loop. -/
theorem claim_C8 (st : BaseSubprocessTransport) (q : List PCall) (c : PCall)
    (fd : Nat) (data : List Nat) (proto : SubprocessPipeProto) :
    (st.pending_calls = some q →
      st.pipes.all (fun p => (p.2).isSome) = true →
      st.step .wiringDone =
        some { st with
          scheduled := st.scheduled ++ [.connection_made] ++ q,
          pending_calls := none }) ∧
    (st.pending_calls = some q →
      st.callq c = { st with pending_calls := some (q ++ [c]) }) ∧
    (st.pending_calls = none →
      st.callq c = { st with scheduled := st.scheduled ++ [c] }) ∧
    (st.pending_calls = some q →
      BaseSubprocessTransport.getFd st.pipes fd = some (some proto) →
      st.step (.pipeData fd data) =
        some { st with
          pending_calls := some (q ++ [.pipe_data_received fd data]) }) := by
  refine ⟨?_, ?_, ?_, ?_⟩
  · intro hp hall
    simp [BaseSubprocessTransport.step, hp, hall]
  · intro hp
    simp [BaseSubprocessTransport.callq, hp]
  · intro hp
    simp [BaseSubprocessTransport.callq, hp]
  · intro hp hg
    simp [BaseSubprocessTransport.step, hg, BaseSubprocessTransport.callq, hp]

theorem claim_C8_witness :
    ({ closed := false, returncode := none,
       pipes := [(0, some { pipe := some (), disconnected := false })],
       pending_calls := some [.process_exited], finished := false,
       scheduled := [], waitersResolved := [] } :
        BaseSubprocessTransport).step .wiringDone =
      some { closed := false, returncode := none,
             pipes := [(0, some { pipe := some (), disconnected := false })],
             pending_calls := none, finished := false,
             scheduled := [.connection_made, .process_exited],
             waitersResolved := [] } ∧
    ({ closed := false, returncode := none,
       pipes := [(0, some { pipe := some (), disconnected := false })],
       pending_calls := some [.process_exited], finished := false,
       scheduled := [], waitersResolved := [] } :
        BaseSubprocessTransport).step (.pipeData 0 [9]) =
      some { closed := false, returncode := none,
             pipes := [(0, some { pipe := some (), disconnected := false })],
             pending_calls := some [.process_exited,
               .pipe_data_received 0 [9]],
             finished := false, scheduled := [], waitersResolved := [] } ∧
    ({ closed := false, returncode := none,
       pipes := [(0, some { pipe := some (), disconnected := false })],
       pending_calls := none, finished := false,
       scheduled := [.connection_made, .process_exited],
       waitersResolved := [] } :
        BaseSubprocessTransport).callq (.connection_lost none) =
      { closed := false, returncode := none,
        pipes := [(0, some { pipe := some (), disconnected := false })],
        pending_calls := none, finished := false,
        scheduled := [.connection_made, .process_exited,
          .connection_lost none],
        waitersResolved := [] } := by
  have h1 := claim_C8
    { closed := false, returncode := none,
      pipes := [(0, some { pipe := some (), disconnected := false })],
      pending_calls := some [.process_exited], finished := false,
      scheduled := [], waitersResolved := [] }
    [.process_exited] (.connection_lost none) 0 [9]
    { pipe := some (), disconnected := false }
  have h2 := claim_C8
    { closed := false, returncode := none,
      pipes := [(0, some { pipe := some (), disconnected := false })],
      pending_calls := none, finished := false,
      scheduled := [.connection_made, .process_exited],
      waitersResolved := [] }
    [.process_exited] (.connection_lost none) 0 [9]
    { pipe := some (), disconnected := false }
  refine ⟨?_, ?_, ?_⟩
  · rw [h1.1 rfl (by decide)]; decide
  · rw [h1.2.2.2 rfl (by decide)]; decide
  · rw [h2.2.2.1 rfl]; decide

theorem popKey_perm :
    ∀ {α : Type} (l : List (Nat × α)) (k : Nat) (v : α)
      (rest : List (Nat × α)),
      popKey k l = some (v, rest) → l.Perm ((k, v) :: rest) := by
  intro α l
  induction l with
  | nil => intro k v rest h; simp [popKey] at h
  | cons p l' ih =>
      intro k v rest h
      obtain ⟨k', w⟩ := p
      by_cases hk : k' = k
      · simp only [popKey, if_pos hk, Option.some.injEq, Prod.mk.injEq] at h
        obtain ⟨hv, hrest⟩ := h
        subst hv
        subst hrest
        subst hk
        exact List.Perm.refl _
      · cases hp : popKey k l' with
        | none => simp [popKey, hk, hp] at h
        | some pr =>
            obtain ⟨v', rest'⟩ := pr
            simp only [popKey, if_neg hk, hp, Option.some.injEq,
              Prod.mk.injEq] at h
            obtain ⟨hv, hrest⟩ := h
            rw [hv] at hp
            subst hrest
            have hperm := ih k v rest' hp
            exact (hperm.cons (k', w)).trans (List.Perm.swap (k, v) (k', w) rest')

theorem popKey_dictInsert_exists :
    ∀ {α : Type} (l : List (Nat × α)) (k : Nat) (v : α),
      ∃ rest, popKey k (dictInsert k v l) = some (v, rest) := by
  intro α l
  induction l with
  | nil => intro k v; exact ⟨[], by simp [dictInsert, popKey]⟩
  | cons p l' ih =>
      intro k v
      obtain ⟨k', w⟩ := p
      by_cases hk : k' = k
      · exact ⟨l', by simp [dictInsert, hk, popKey]⟩
      · obtain ⟨rest', hrest⟩ := ih k v
        exact ⟨(k', w) :: rest', by simp [dictInsert, hk, popKey, hrest]⟩

theorem FastChildWatcher.fstep_bag (st st' : FastChildWatcher) (e : FEvent)
    (hguard : ∀ pid status, e = FEvent.reap pid status →
      pid ∉ keysOf st.zombies)
    (h : st.fstep e = some st') :
    st'.bag = st.bag + (FastChildWatcher.reapsOf [e] : Multiset (Nat × Int)) := by
  cases e with
  | enter =>
      simp only [FastChildWatcher.fstep, Option.some.injEq] at h
      subst h
      simp [FastChildWatcher.bag, FastChildWatcher.reapsOf]
  | exitScope =>
      by_cases hf : st.forks = 0
      · simp [FastChildWatcher.fstep, hf] at h
      · simp only [FastChildWatcher.fstep, if_neg hf] at h
        by_cases hc : st.forks - 1 ≠ 0 ∨ st.zombies = []
        · rw [if_pos hc] at h
          injection h with h
          subst h
          simp [FastChildWatcher.bag, FastChildWatcher.reapsOf]
        · rw [if_neg hc] at h
          injection h with h
          subst h
          push_neg at hc
          obtain ⟨-, hz⟩ := hc
          simp only [FastChildWatcher.bag, FastChildWatcher.reapsOf,
            Multiset.coe_nil, ← Multiset.coe_add]
          abel
  | reap pid status =>
      have hfresh : pid ∉ keysOf st.zombies := hguard pid status rfl
      cases hp : popKey pid st.callbacks with
      | some pr =>
          obtain ⟨cb, rest⟩ := pr
          simp only [FastChildWatcher.fstep, hp, Option.some.injEq] at h
          subst h
          simp only [FastChildWatcher.bag, FastChildWatcher.reapsOf,
            ← Multiset.coe_add]
          abel
      | none =>
          by_cases hf : st.forks ≠ 0
          · simp only [FastChildWatcher.fstep, hp, if_pos hf,
              Option.some.injEq] at h
            subst h
            simp only [FastChildWatcher.bag, FastChildWatcher.reapsOf,
              dictInsert_not_mem st.zombies pid _ hfresh,
              ← Multiset.coe_add]
            abel
          · simp only [FastChildWatcher.fstep, hp, if_neg hf,
              Option.some.injEq] at h
            subst h
            simp only [FastChildWatcher.bag, FastChildWatcher.reapsOf,
              ← Multiset.coe_add]
            abel
  | add pid cb =>
      by_cases hf : st.forks = 0
      · simp [FastChildWatcher.fstep, hf] at h
      · cases hz : popKey pid st.zombies with
        | none =>
            simp only [FastChildWatcher.fstep, if_neg hf, hz,
              Option.some.injEq] at h
            subst h
            simp [FastChildWatcher.bag, FastChildWatcher.reapsOf]
        | some pr =>
            obtain ⟨rc, zrest⟩ := pr
            obtain ⟨crest, hcr⟩ := popKey_dictInsert_exists st.callbacks pid cb
            simp only [FastChildWatcher.fstep, if_neg hf, hz, hcr,
              Option.some.injEq] at h
            subst h
            have hperm := popKey_perm st.zombies pid rc zrest hz
            have hzeq : (st.zombies : Multiset (Nat × Int)) =
                ((pid, rc) :: zrest : List (Nat × Int)) :=
              Multiset.coe_eq_coe.mpr hperm
            simp only [FastChildWatcher.bag, FastChildWatcher.reapsOf, hzeq,
              Multiset.coe_nil, ← Multiset.coe_add]
            have hcons : (((pid, rc) :: zrest : List (Nat × Int)) :
                Multiset (Nat × Int)) =
                ([(pid, rc)] : List (Nat × Int)) + (zrest : Multiset (Nat × Int)) := by
              rw [Multiset.coe_add]
              rfl
            rw [hcons]
            abel

theorem FastChildWatcher.frun_bag :
    ∀ (evs : List FEvent) (st st' : FastChildWatcher),
      st.reapFresh evs = true → st.frun evs = some st' →
      st'.bag = st.bag + (FastChildWatcher.reapsOf evs : Multiset (Nat × Int)) := by
  intro evs
  induction evs with
  | nil =>
      intro st st' _ h
      simp [FastChildWatcher.frun] at h
      subst h
      simp [FastChildWatcher.reapsOf]
  | cons e evs ih =>
      intro st st' hfr hrun
      cases hs : st.fstep e with
      | none => simp [FastChildWatcher.reapFresh, hs] at hfr
      | some st1 =>
          have hguard : ∀ pid status, e = FEvent.reap pid status →
              pid ∉ keysOf st.zombies := by
            intro pid status he
            subst he
            simp only [FastChildWatcher.reapFresh, Bool.and_eq_true] at hfr
            exact of_decide_eq_true hfr.1
          have hrest : st1.reapFresh evs = true := by
            simp only [FastChildWatcher.reapFresh, Bool.and_eq_true, hs]
              at hfr
            exact hfr.2
          simp only [FastChildWatcher.frun, hs] at hrun
          have hstep := FastChildWatcher.fstep_bag st st1 e hguard hs
          have hrec := ih st1 st' hrest hrun
          rw [hrec, hstep]
          have hsplit : FastChildWatcher.reapsOf (e :: evs) =
              FastChildWatcher.reapsOf [e] ++ FastChildWatcher.reapsOf evs := by
            cases e <;> simp [FastChildWatcher.reapsOf]
          rw [hsplit, ← Multiset.coe_add]
          abel

/-- C3 falsified as stated: a pid can be reaped again (after pid reuse)
while its exit code is still cached as a zombie; the `dict` assignment
then overwrites, and so loses, the cached exit code.  Concretely, under
one spawn scope pid 5 is reaped with status 0 (exit code 0) and then
reaped again with status 256 (exit code 1): the final state accounts
only for exit code 1 — code 0 for pid 5 appears neither in the fired
callbacks, nor in the zombie cache, nor in the untracked reports. -/
theorem claim_C3_counterexample :
    FastChildWatcher.initState.frun [.enter, .reap 5 0, .reap 5 256] =
      some { callbacks := [], zombies := [(5, 1)], forks := 1, fired := [],
             untracked := [] } ∧
    ¬ (FastChildWatcher.bag
        { callbacks := [], zombies := [(5, 1)], forks := 1, fired := [],
          untracked := [] } =
      (FastChildWatcher.reapsOf [.enter, .reap 5 0, .reap 5 256] :
        Multiset (Nat × Int))) := by
  constructor
  · decide
  · decide

/-- C3 (amended): reaping a pid with no registered callback while the
spawn-scope count is positive caches its exit code as a zombie; a later
`add_child_handler` for that pid fires the callback immediately with the
cached code and removes the pid from both the callback map and the
zombie cache; when the scope count drops back to zero, remaining zombies
are reported as untracked and cleared; and — provided no pid is reaped
again while an exit code for it is still cached — no exit code is lost:
the fired, cached, and untracked codes together are exactly the reaped
ones. -/
theorem claim_C3 (st : FastChildWatcher) (pid cb status : Nat) (rc : Int)
    (zrest : List (Nat × Int)) (evs : List FEvent)
    (st' : FastChildWatcher) :
    (popKey pid st.callbacks = none → st.forks ≠ 0 →
      st.fstep (.reap pid status) =
        some { st with
          zombies := dictInsert pid (computeReturncode status) st.zombies }) ∧
    (st.forks ≠ 0 → pid ∉ keysOf st.callbacks →
      popKey pid st.zombies = some (rc, zrest) →
      st.fstep (.add pid cb) =
        some { st with zombies := zrest,
                       fired := st.fired ++ [(pid, rc)] }) ∧
    (st.forks = 1 → st.zombies ≠ [] →
      st.fstep .exitScope =
        some { st with forks := 0, zombies := [],
                       untracked := st.untracked ++ st.zombies }) ∧
    (FastChildWatcher.initState.reapFresh evs = true →
      FastChildWatcher.initState.frun evs = some st' →
      st'.bag = (FastChildWatcher.reapsOf evs : Multiset (Nat × Int))) := by
  refine ⟨?_, ?_, ?_, ?_⟩
  · intro hp hf
    simp [FastChildWatcher.fstep, hp, hf]
  · intro hf hmem hz
    simp [FastChildWatcher.fstep, hf, hz,
      popKey_dictInsert st.callbacks pid cb hmem]
  · intro hf hz
    simp [FastChildWatcher.fstep, hf, hz]
  · intro hfr hrun
    have h := FastChildWatcher.frun_bag evs FastChildWatcher.initState st'
      hfr hrun
    rw [h]
    simp [FastChildWatcher.bag, FastChildWatcher.initState]

theorem claim_C3_witness :
    (FastChildWatcher.fstep
      { callbacks := [], zombies := [], forks := 1, fired := [],
        untracked := [] } (.reap 5 0) =
      some { callbacks := [], zombies := [(5, 0)], forks := 1, fired := [],
             untracked := [] }) ∧
    (FastChildWatcher.fstep
      { callbacks := [], zombies := [(5, 0)], forks := 1, fired := [],
        untracked := [] } (.add 5 9) =
      some { callbacks := [], zombies := [], forks := 1, fired := [(5, 0)],
             untracked := [] }) ∧
    (FastChildWatcher.fstep
      { callbacks := [], zombies := [(5, 0)], forks := 1, fired := [],
        untracked := [] } .exitScope =
      some { callbacks := [], zombies := [], forks := 0, fired := [],
             untracked := [(5, 0)] }) ∧
    FastChildWatcher.bag
      { callbacks := [], zombies := [], forks := 0, fired := [(5, 0)],
        untracked := [] } =
      (FastChildWatcher.reapsOf [.enter, .reap 5 0, .add 5 9, .exitScope] :
        Multiset (Nat × Int)) := by
  have h1 := claim_C3
    { callbacks := [], zombies := [], forks := 1, fired := [],
      untracked := [] } 5 9 0 0 [] [] FastChildWatcher.initState
  have h2 := claim_C3
    { callbacks := [], zombies := [(5, 0)], forks := 1, fired := [],
      untracked := [] } 5 9 0 0 []
    [.enter, .reap 5 0, .add 5 9, .exitScope]
    { callbacks := [], zombies := [], forks := 0, fired := [(5, 0)],
      untracked := [] }
  refine ⟨?_, ?_, ?_, ?_⟩
  · rw [h1.1 (by decide) (by decide)]; decide
  · rw [h2.2.1 (by decide) (by decide) (by decide)]; decide
  · rw [h2.2.2.1 (by decide) (by decide)]; decide
  · exact h2.2.2.2 (by decide) (by decide)
